import Mathlib

/-!
Shallow embedding of `Sources/CPenguinParallel/include/CPenguinParallel.h`:
two atomic storage cells (`CAtomicUInt64`, `CAtomicUInt8`) with load, store,
compare-and-swap, fetch-add/fetch-sub and fence wrappers around the C11
`stdatomic.h` primitives.  Machine integers are modelled as `Nat` with an
explicit `% 2 ^ 64` wherever the C code's unsigned arithmetic wraps; the
in/out `expected` pointer of a compare-and-swap is modelled as an input
value plus a returned output value; the weak compare-and-swap's permitted
spurious failure is modelled by an explicit `spurious` input flag (the
strong variant takes no such flag).  Memory orders are carried as inert
data so that the ordering each wrapper requests is part of the model.
-/

/-- The memory orders of C11 `stdatomic.h` (`memory_order_*`). -/
inductive MemoryOrder where
  | relaxed
  | consume
  | acquire
  | release
  | acq_rel
  | seq_cst
deriving DecidableEq

/-- Modulus of 64-bit unsigned arithmetic (`uint64_t`). -/
def U64_MOD : Nat := 2 ^ 64

/-- `struct CAtomicUInt64 { atomic_uint_least64_t value; }`. -/
structure CAtomicUInt64 where
  value : Nat
deriving DecidableEq

/-- `struct CAtomicUInt8 { atomic_uchar value; }`. -/
structure CAtomicUInt8 where
  value : Nat
deriving DecidableEq

/-- Result of a compare-and-swap call: the returned `_Bool`, the value left
in the caller's `orig` (expected in/out) location, and the cell afterwards. -/
structure CmpxchgResult (Cell : Type) where
  success : Bool
  orig : Nat
  obj : Cell
deriving DecidableEq

/-- C11 `atomic_compare_exchange_weak_explicit` on a 64-bit cell.  If the
comparison succeeds and no spurious failure occurs, the cell is replaced by
`new`, the call returns true and `orig` is untouched; otherwise the cell is
unchanged, its current value is written back into `orig` and the call
returns false.  `spurious` models the weak variant's permitted spurious
failure; the order arguments are carried but do not affect the value
semantics of a single-threaded execution. -/
def atomic_compare_exchange_weak_explicit (obj : CAtomicUInt64) (orig new : Nat)
    (success_order failure_order : MemoryOrder) (spurious : Bool) :
    CmpxchgResult CAtomicUInt64 :=
  if spurious = false ∧ obj.value = orig then
    { success := true, orig := orig, obj := { value := new } }
  else
    { success := false, orig := obj.value, obj := obj }

/-- C11 `atomic_compare_exchange_strong_explicit` on an 8-bit cell: as the
weak variant but with no spurious failure. -/
def atomic_compare_exchange_strong_explicit (obj : CAtomicUInt8) (orig new : Nat)
    (success_order failure_order : MemoryOrder) :
    CmpxchgResult CAtomicUInt8 :=
  if obj.value = orig then
    { success := true, orig := orig, obj := { value := new } }
  else
    { success := false, orig := obj.value, obj := obj }

/-- `nbc_set_relaxed_atomic`: `atomic_store_explicit(&obj->value, value, memory_order_relaxed)`. -/
def nbc_set_relaxed_atomic (obj : CAtomicUInt64) (value : Nat) : CAtomicUInt64 :=
  { value := value }

/-- `nbc_load_relaxed`: `atomic_load_explicit(&obj->value, memory_order_relaxed)`. -/
def nbc_load_relaxed (obj : CAtomicUInt64) : Nat :=
  obj.value

/-- `nbc_load_acquire`: `atomic_load_explicit(&obj->value, memory_order_acquire)`. -/
def nbc_load_acquire (obj : CAtomicUInt64) : Nat :=
  obj.value

/-- `nbc_load_seqcst`: `atomic_load_explicit(&obj->value, memory_order_seq_cst)`. -/
def nbc_load_seqcst (obj : CAtomicUInt64) : Nat :=
  obj.value

/-- Success order passed by `nbc_cmpxchg_acqrel`: `memory_order_acq_rel`. -/
def nbc_cmpxchg_acqrel_success_order : MemoryOrder := MemoryOrder.acq_rel

/-- Failure order passed by `nbc_cmpxchg_acqrel`: `memory_order_relaxed`. -/
def nbc_cmpxchg_acqrel_failure_order : MemoryOrder := MemoryOrder.relaxed

/-- `nbc_cmpxchg_acqrel`: `atomic_compare_exchange_weak_explicit(&obj->value,
orig, new, memory_order_acq_rel, memory_order_relaxed)`. -/
def nbc_cmpxchg_acqrel (obj : CAtomicUInt64) (orig new : Nat) (spurious : Bool) :
    CmpxchgResult CAtomicUInt64 :=
  atomic_compare_exchange_weak_explicit obj orig new
    nbc_cmpxchg_acqrel_success_order nbc_cmpxchg_acqrel_failure_order spurious

/-- Success order passed by `nbc_cmpxchg_seqcst`: `memory_order_seq_cst`. -/
def nbc_cmpxchg_seqcst_success_order : MemoryOrder := MemoryOrder.seq_cst

/-- Failure order passed by `nbc_cmpxchg_seqcst`: `memory_order_relaxed`. -/
def nbc_cmpxchg_seqcst_failure_order : MemoryOrder := MemoryOrder.relaxed

/-- `nbc_cmpxchg_seqcst`: `atomic_compare_exchange_weak_explicit(&obj->value,
orig, new, memory_order_seq_cst, memory_order_relaxed)`. -/
def nbc_cmpxchg_seqcst (obj : CAtomicUInt64) (orig new : Nat) (spurious : Bool) :
    CmpxchgResult CAtomicUInt64 :=
  atomic_compare_exchange_weak_explicit obj orig new
    nbc_cmpxchg_seqcst_success_order nbc_cmpxchg_seqcst_failure_order spurious

/-- Success order passed by `nbc_cmpxchg_relaxed`: `memory_order_relaxed`. -/
def nbc_cmpxchg_relaxed_success_order : MemoryOrder := MemoryOrder.relaxed

/-- Failure order passed by `nbc_cmpxchg_relaxed`: `memory_order_relaxed`. -/
def nbc_cmpxchg_relaxed_failure_order : MemoryOrder := MemoryOrder.relaxed

/-- `nbc_cmpxchg_relaxed`: `atomic_compare_exchange_weak_explicit(&obj->value,
orig, new, memory_order_relaxed, memory_order_relaxed)`. -/
def nbc_cmpxchg_relaxed (obj : CAtomicUInt64) (orig new : Nat) (spurious : Bool) :
    CmpxchgResult CAtomicUInt64 :=
  atomic_compare_exchange_weak_explicit obj orig new
    nbc_cmpxchg_relaxed_success_order nbc_cmpxchg_relaxed_failure_order spurious

/-- `nbc_fetch_add`: `atomic_fetch_add(&obj->value, amount)` — returns the
value before the operation and leaves the cell at the wrapped sum. -/
def nbc_fetch_add (obj : CAtomicUInt64) (amount : Nat) : Nat × CAtomicUInt64 :=
  (obj.value, { value := (obj.value + amount) % U64_MOD })

/-- `nbc_fetch_sub`: `atomic_fetch_sub(&obj->value, amount)` — returns the
value before the operation and leaves the cell at the wrapped difference
(`(old - amount) mod 2^64`, written over `Nat` as addition of the modular
complement of `amount`). -/
def nbc_fetch_sub (obj : CAtomicUInt64) (amount : Nat) : Nat × CAtomicUInt64 :=
  (obj.value, { value := (obj.value + (U64_MOD - amount % U64_MOD)) % U64_MOD })

/-- `nbc_thread_fence_seqcst`: `atomic_thread_fence(memory_order_seq_cst)` —
touches no cell. -/
def nbc_thread_fence_seqcst : Unit := ()

/-- `nbc_thread_fence_acquire`: `atomic_thread_fence(memory_order_acquire)` —
touches no cell. -/
def nbc_thread_fence_acquire : Unit := ()

/-- `ac_load_relaxed`: `atomic_load_explicit(&obj->value, memory_order_relaxed)`. -/
def ac_load_relaxed (obj : CAtomicUInt8) : Nat :=
  obj.value

/-- `ac_load_acquire`: `atomic_load_explicit(&obj->value, memory_order_acquire)`. -/
def ac_load_acquire (obj : CAtomicUInt8) : Nat :=
  obj.value

/-- `ac_store_relaxed`: `atomic_store_explicit(&obj->value, value, memory_order_relaxed)`. -/
def ac_store_relaxed (obj : CAtomicUInt8) (value : Nat) : CAtomicUInt8 :=
  { value := value }

/-- `ac_store_release`: `atomic_store_explicit(&obj->value, value, memory_order_release)`. -/
def ac_store_release (obj : CAtomicUInt8) (value : Nat) : CAtomicUInt8 :=
  { value := value }

/-- Success order passed by `ac_cmpxchg_strong_acquire`: `memory_order_acquire`. -/
def ac_cmpxchg_strong_acquire_success_order : MemoryOrder := MemoryOrder.acquire

/-- Failure order passed by `ac_cmpxchg_strong_acquire`: `memory_order_relaxed`. -/
def ac_cmpxchg_strong_acquire_failure_order : MemoryOrder := MemoryOrder.relaxed

/-- `ac_cmpxchg_strong_acquire`: `atomic_compare_exchange_strong_explicit(
&obj->value, orig, new, memory_order_acquire, memory_order_relaxed)`. -/
def ac_cmpxchg_strong_acquire (obj : CAtomicUInt8) (orig new : Nat) :
    CmpxchgResult CAtomicUInt8 :=
  atomic_compare_exchange_strong_explicit obj orig new
    ac_cmpxchg_strong_acquire_success_order ac_cmpxchg_strong_acquire_failure_order

/-- The operations of the 64-bit cell, one constructor per function of the
header (with the compare-and-swap in/out `orig` and the weak variants'
spurious-failure flag as explicit inputs). -/
inductive U64Op where
  | set_relaxed (value : Nat)
  | load_relaxed
  | load_acquire
  | load_seqcst
  | cmpxchg_acqrel (orig new : Nat) (spurious : Bool)
  | cmpxchg_seqcst (orig new : Nat) (spurious : Bool)
  | cmpxchg_relaxed (orig new : Nat) (spurious : Bool)
  | fetch_add (amount : Nat)
  | fetch_sub (amount : Nat)
  | fence_seqcst
  | fence_acquire
deriving DecidableEq

/-- The operations of the 8-bit cell, one constructor per function of the
header. -/
inductive U8Op where
  | load_relaxed
  | load_acquire
  | store_relaxed (value : Nat)
  | store_release (value : Nat)
  | cmpxchg_strong_acquire (orig new : Nat)
deriving DecidableEq

/-- What a single operation hands back to the caller: nothing (`void`), a
loaded or pre-operation value, or a compare-and-swap outcome (the `_Bool`
plus the expected in/out location's final content). -/
inductive OpResult where
  | unit
  | value (v : Nat)
  | cas (success : Bool) (orig : Nat)
deriving DecidableEq

/-- Is the operation one of the 64-bit compare-and-swap variants? -/
def U64Op.isCmpxchg : U64Op → Bool
  | .cmpxchg_acqrel _ _ _ => true
  | .cmpxchg_seqcst _ _ _ => true
  | .cmpxchg_relaxed _ _ _ => true
  | _ => false

/-- Is the operation the 8-bit compare-and-swap? -/
def U8Op.isCmpxchg : U8Op → Bool
  | .cmpxchg_strong_acquire _ _ => true
  | _ => false

/-- Run one 64-bit operation on a cell, returning the caller-visible result
and the cell afterwards. -/
def runU64Op : U64Op → CAtomicUInt64 → OpResult × CAtomicUInt64
  | .set_relaxed v, s => (.unit, nbc_set_relaxed_atomic s v)
  | .load_relaxed, s => (.value (nbc_load_relaxed s), s)
  | .load_acquire, s => (.value (nbc_load_acquire s), s)
  | .load_seqcst, s => (.value (nbc_load_seqcst s), s)
  | .cmpxchg_acqrel o n sp, s =>
      let r := nbc_cmpxchg_acqrel s o n sp
      (.cas r.success r.orig, r.obj)
  | .cmpxchg_seqcst o n sp, s =>
      let r := nbc_cmpxchg_seqcst s o n sp
      (.cas r.success r.orig, r.obj)
  | .cmpxchg_relaxed o n sp, s =>
      let r := nbc_cmpxchg_relaxed s o n sp
      (.cas r.success r.orig, r.obj)
  | .fetch_add a, s =>
      let r := nbc_fetch_add s a
      (.value r.1, r.2)
  | .fetch_sub a, s =>
      let r := nbc_fetch_sub s a
      (.value r.1, r.2)
  | .fence_seqcst, s => (.unit, s)
  | .fence_acquire, s => (.unit, s)

/-- Run one 8-bit operation on a cell, returning the caller-visible result
and the cell afterwards. -/
def runU8Op : U8Op → CAtomicUInt8 → OpResult × CAtomicUInt8
  | .load_relaxed, s => (.value (ac_load_relaxed s), s)
  | .load_acquire, s => (.value (ac_load_acquire s), s)
  | .store_relaxed v, s => (.unit, ac_store_relaxed s v)
  | .store_release v, s => (.unit, ac_store_release s v)
  | .cmpxchg_strong_acquire o n, s =>
      let r := ac_cmpxchg_strong_acquire s o n
      (.cas r.success r.orig, r.obj)

/-- Run a sequence of `nbc_set_relaxed_atomic` stores on a 64-bit cell. -/
def runStores (s : CAtomicUInt64) (vs : List Nat) : CAtomicUInt64 :=
  vs.foldl nbc_set_relaxed_atomic s

/-- Claim C1: for every 64-bit cell and every pair of values X and Y, if the
cell currently holds X and a compare-and-swap (`cmpxchg_relaxed`,
`cmpxchg_acqrel`, or `cmpxchg_seqcst`, absent a spurious failure;
`cmpxchg_strong_acquire` unconditionally) is called with expected value X and
new value Y, the operation returns success and the cell afterwards holds Y. -/
theorem claim_C1_cas_success (X Y : Nat) (c : CAtomicUInt64) (c8 : CAtomicUInt8)
    (h : c.value = X) (h8 : c8.value = X) :
    ((nbc_cmpxchg_relaxed c X Y false).success = true ∧
      (nbc_cmpxchg_relaxed c X Y false).obj.value = Y) ∧
    ((nbc_cmpxchg_acqrel c X Y false).success = true ∧
      (nbc_cmpxchg_acqrel c X Y false).obj.value = Y) ∧
    ((nbc_cmpxchg_seqcst c X Y false).success = true ∧
      (nbc_cmpxchg_seqcst c X Y false).obj.value = Y) ∧
    ((ac_cmpxchg_strong_acquire c8 X Y).success = true ∧
      (ac_cmpxchg_strong_acquire c8 X Y).obj.value = Y) := by
  simp [nbc_cmpxchg_relaxed, nbc_cmpxchg_acqrel, nbc_cmpxchg_seqcst,
    ac_cmpxchg_strong_acquire, atomic_compare_exchange_weak_explicit,
    atomic_compare_exchange_strong_explicit, h, h8]

/-- Witness for claim C1 at the concrete cells holding 5, with X = 5, Y = 9. -/
theorem claim_C1_cas_success_witness :
    (CAtomicUInt64.mk 5).value = 5 ∧ (CAtomicUInt8.mk 5).value = 5 ∧
    (nbc_cmpxchg_acqrel (CAtomicUInt64.mk 5) 5 9 false).success = true ∧
    (nbc_cmpxchg_acqrel (CAtomicUInt64.mk 5) 5 9 false).obj.value = 9 ∧
    (ac_cmpxchg_strong_acquire (CAtomicUInt8.mk 5) 5 9).success = true ∧
    (ac_cmpxchg_strong_acquire (CAtomicUInt8.mk 5) 5 9).obj.value = 9 := by
  have h := claim_C1_cas_success 5 9 (CAtomicUInt64.mk 5) (CAtomicUInt8.mk 5) rfl rfl
  exact ⟨rfl, rfl, h.2.1.1, h.2.1.2, h.2.2.2.1, h.2.2.2.2⟩

/-- Claim C2: for every compare-and-swap variant, whenever the cell's current
value differs from the caller-supplied expected value, the call returns
failure, the cell is left unchanged, and the cell's actual current value is
written back into the expected-value in/out location. -/
theorem claim_C2_cas_failure (c : CAtomicUInt64) (c8 : CAtomicUInt8)
    (orig new : Nat) (sp : Bool) (h : c.value ≠ orig) (h8 : c8.value ≠ orig) :
    ((nbc_cmpxchg_relaxed c orig new sp).success = false ∧
      (nbc_cmpxchg_relaxed c orig new sp).obj = c ∧
      (nbc_cmpxchg_relaxed c orig new sp).orig = c.value) ∧
    ((nbc_cmpxchg_acqrel c orig new sp).success = false ∧
      (nbc_cmpxchg_acqrel c orig new sp).obj = c ∧
      (nbc_cmpxchg_acqrel c orig new sp).orig = c.value) ∧
    ((nbc_cmpxchg_seqcst c orig new sp).success = false ∧
      (nbc_cmpxchg_seqcst c orig new sp).obj = c ∧
      (nbc_cmpxchg_seqcst c orig new sp).orig = c.value) ∧
    ((ac_cmpxchg_strong_acquire c8 orig new).success = false ∧
      (ac_cmpxchg_strong_acquire c8 orig new).obj = c8 ∧
      (ac_cmpxchg_strong_acquire c8 orig new).orig = c8.value) := by
  simp [nbc_cmpxchg_relaxed, nbc_cmpxchg_acqrel, nbc_cmpxchg_seqcst,
    ac_cmpxchg_strong_acquire, atomic_compare_exchange_weak_explicit,
    atomic_compare_exchange_strong_explicit, h, h8]

/-- Witness for claim C2 at a cell holding 4 with expected value 7. -/
theorem claim_C2_cas_failure_witness :
    (CAtomicUInt64.mk 4).value ≠ 7 ∧ (CAtomicUInt8.mk 4).value ≠ 7 ∧
    (nbc_cmpxchg_seqcst (CAtomicUInt64.mk 4) 7 9 false).success = false ∧
    (nbc_cmpxchg_seqcst (CAtomicUInt64.mk 4) 7 9 false).obj = CAtomicUInt64.mk 4 ∧
    (nbc_cmpxchg_seqcst (CAtomicUInt64.mk 4) 7 9 false).orig = 4 := by
  have h := claim_C2_cas_failure (CAtomicUInt64.mk 4) (CAtomicUInt8.mk 4) 7 9 false
    (by decide) (by decide)
  exact ⟨by decide, by decide, h.2.2.1.1, h.2.2.1.2.1, h.2.2.1.2.2⟩

/-- Claim C3: for every starting cell value `old` and every `amount`,
`fetch_add` and `fetch_sub` return `old` (the value before the operation)
and leave the cell holding `(old + amount) mod 2^64` respectively
`(old - amount) mod 2^64`; in particular `fetch_add` with amount 1 on a cell
holding `2^64 - 1` returns `2^64 - 1` and leaves the cell at 0. -/
theorem claim_C3_fetch_add_sub (c : CAtomicUInt64) (a : Nat) :
    (nbc_fetch_add c a).1 = c.value ∧
    (nbc_fetch_add c a).2.value = (c.value + a) % 2 ^ 64 ∧
    (nbc_fetch_sub c a).1 = c.value ∧
    ((nbc_fetch_sub c a).2.value : Int) = ((c.value : Int) - (a : Int)) % 2 ^ 64 ∧
    (nbc_fetch_add (CAtomicUInt64.mk (2 ^ 64 - 1)) 1).1 = 2 ^ 64 - 1 ∧
    (nbc_fetch_add (CAtomicUInt64.mk (2 ^ 64 - 1)) 1).2.value = 0 := by
  refine ⟨rfl, rfl, rfl, ?_, rfl, ?_⟩
  · have hN : U64_MOD = 18446744073709551616 := by norm_num [U64_MOD]
    have hZ : (2 : Int) ^ 64 = 18446744073709551616 := by norm_num
    simp only [nbc_fetch_sub, hN, hZ]
    omega
  · have hN : U64_MOD = 18446744073709551616 := by norm_num [U64_MOD]
    simp only [nbc_fetch_add, hN]
    norm_num

/-- Claim C4 as stated is false: it asserts that `nbc_cmpxchg_acqrel` applies
acquire ordering on failure (together with the orderings of the other two
variants), but the source passes `memory_order_relaxed` as the failure order
of `nbc_cmpxchg_acqrel`. -/
theorem claim_C4_counterexample :
    ¬ (nbc_cmpxchg_acqrel_success_order = MemoryOrder.acq_rel ∧
       nbc_cmpxchg_acqrel_failure_order = MemoryOrder.acquire ∧
       nbc_cmpxchg_seqcst_success_order = MemoryOrder.seq_cst ∧
       nbc_cmpxchg_seqcst_failure_order = MemoryOrder.relaxed ∧
       nbc_cmpxchg_relaxed_success_order = MemoryOrder.relaxed ∧
       nbc_cmpxchg_relaxed_failure_order = MemoryOrder.relaxed) := by
  decide

/-- Claim C4 amended: the 64-bit compare-and-swap variants apply exactly the
orderings the source passes — `cmpxchg_acqrel` applies relaxed ordering on
failure and acquire-release ordering on success; `cmpxchg_seqcst` applies
seq-cst ordering on success and relaxed ordering on failure;
`cmpxchg_relaxed` applies relaxed ordering in both outcomes. -/
theorem claim_C4_orderings :
    nbc_cmpxchg_acqrel_success_order = MemoryOrder.acq_rel ∧
    nbc_cmpxchg_acqrel_failure_order = MemoryOrder.relaxed ∧
    nbc_cmpxchg_seqcst_success_order = MemoryOrder.seq_cst ∧
    nbc_cmpxchg_seqcst_failure_order = MemoryOrder.relaxed ∧
    nbc_cmpxchg_relaxed_success_order = MemoryOrder.relaxed ∧
    nbc_cmpxchg_relaxed_failure_order = MemoryOrder.relaxed := by
  exact ⟨rfl, rfl, rfl, rfl, rfl, rfl⟩

/-- Claim C5: the 8-bit `cmpxchg_strong_acquire` is a strong compare-and-swap:
whenever it is called with expected value equal to the cell's current value,
it succeeds in that one call — it never spuriously fails. -/
theorem claim_C5_strong_no_spurious_failure (c8 : CAtomicUInt8) (orig new : Nat)
    (h : c8.value = orig) :
    (ac_cmpxchg_strong_acquire c8 orig new).success = true := by
  simp [ac_cmpxchg_strong_acquire, atomic_compare_exchange_strong_explicit, h]

/-- Witness for claim C5 at a cell holding 3 with expected value 3. -/
theorem claim_C5_strong_no_spurious_failure_witness :
    (CAtomicUInt8.mk 3).value = 3 ∧
    (ac_cmpxchg_strong_acquire (CAtomicUInt8.mk 3) 3 1).success = true :=
  ⟨rfl, claim_C5_strong_no_spurious_failure (CAtomicUInt8.mk 3) 3 1 rfl⟩

/-- Claim C6: on a single thread, for every initial value and every finite
sequence of `store_relaxed` calls (here an arbitrary prefix `vs` followed by
a final store of `v`, so `v` is the most recently stored value), a subsequent
`load_relaxed`, `load_acquire`, or `load_seqcst` on the same cell returns the
most recently stored value. -/
theorem claim_C6_store_load_round_trip (init : Nat) (vs : List Nat) (v : Nat) :
    nbc_load_relaxed (runStores (CAtomicUInt64.mk init) (vs ++ [v])) = v ∧
    nbc_load_acquire (runStores (CAtomicUInt64.mk init) (vs ++ [v])) = v ∧
    nbc_load_seqcst (runStores (CAtomicUInt64.mk init) (vs ++ [v])) = v := by
  have h : runStores (CAtomicUInt64.mk init) (vs ++ [v]) = CAtomicUInt64.mk v := by
    simp [runStores, List.foldl_append, nbc_set_relaxed_atomic]
  simp [h, nbc_load_relaxed, nbc_load_acquire, nbc_load_seqcst]

/-- Case analysis of the weak compare-and-swap: it either succeeds (no
spurious failure and values equal) leaving `orig` untouched and the cell at
`new`, or fails leaving the cell untouched and `orig` at the cell's value. -/
theorem weak_cas_spec (obj : CAtomicUInt64) (o n : Nat) (so fo : MemoryOrder)
    (sp : Bool) :
    (sp = false ∧ obj.value = o ∧
      atomic_compare_exchange_weak_explicit obj o n so fo sp =
        { success := true, orig := o, obj := { value := n } }) ∨
    (¬(sp = false ∧ obj.value = o) ∧
      atomic_compare_exchange_weak_explicit obj o n so fo sp =
        { success := false, orig := obj.value, obj := obj }) := by
  by_cases hc : sp = false ∧ obj.value = o
  · exact Or.inl ⟨hc.1, hc.2, by rw [atomic_compare_exchange_weak_explicit, if_pos hc]⟩
  · exact Or.inr ⟨hc, by rw [atomic_compare_exchange_weak_explicit, if_neg hc]⟩

/-- Case analysis of the strong compare-and-swap: it succeeds exactly when
the values are equal, with the same success/failure outcomes as the weak
variant and no spurious failure. -/
theorem strong_cas_spec (obj : CAtomicUInt8) (o n : Nat) (so fo : MemoryOrder) :
    (obj.value = o ∧
      atomic_compare_exchange_strong_explicit obj o n so fo =
        { success := true, orig := o, obj := { value := n } }) ∨
    (obj.value ≠ o ∧
      atomic_compare_exchange_strong_explicit obj o n so fo =
        { success := false, orig := obj.value, obj := obj }) := by
  by_cases hc : obj.value = o
  · exact Or.inl ⟨hc, by rw [atomic_compare_exchange_strong_explicit, if_pos hc]⟩
  · exact Or.inr ⟨hc, by rw [atomic_compare_exchange_strong_explicit, if_neg hc]⟩

/-- Claim C7: every operation of both cells is total — for every input it
returns normally (a result and a successor cell exist), and the only
failure any operation can signal is the compare-and-swap mismatch outcome,
delivered as a boolean result together with the corrected expected-value
output and an unchanged cell. -/
theorem claim_C7_totality (op : U64Op) (s : CAtomicUInt64) (op8 : U8Op)
    (s8 : CAtomicUInt8) :
    (∃ r s2, runU64Op op s = (r, s2)) ∧
    (∀ o s2, runU64Op op s = (OpResult.cas false o, s2) →
      op.isCmpxchg = true ∧ o = s.value ∧ s2 = s) ∧
    (∃ r s2, runU8Op op8 s8 = (r, s2)) ∧
    (∀ o s2, runU8Op op8 s8 = (OpResult.cas false o, s2) →
      op8.isCmpxchg = true ∧ o = s8.value ∧ s2 = s8) := by
  refine ⟨⟨_, _, rfl⟩, ?_, ⟨_, _, rfl⟩, ?_⟩
  · intro o s2 h
    cases op with
    | cmpxchg_acqrel a b sp =>
        refine ⟨rfl, ?_⟩
        simp only [runU64Op, nbc_cmpxchg_acqrel] at h
        rcases weak_cas_spec s a b nbc_cmpxchg_acqrel_success_order
            nbc_cmpxchg_acqrel_failure_order sp with ⟨_, _, heq⟩ | ⟨_, heq⟩ <;>
          rw [heq] at h <;> simp at h
        exact ⟨h.1.symm, h.2.symm⟩
    | cmpxchg_seqcst a b sp =>
        refine ⟨rfl, ?_⟩
        simp only [runU64Op, nbc_cmpxchg_seqcst] at h
        rcases weak_cas_spec s a b nbc_cmpxchg_seqcst_success_order
            nbc_cmpxchg_seqcst_failure_order sp with ⟨_, _, heq⟩ | ⟨_, heq⟩ <;>
          rw [heq] at h <;> simp at h
        exact ⟨h.1.symm, h.2.symm⟩
    | cmpxchg_relaxed a b sp =>
        refine ⟨rfl, ?_⟩
        simp only [runU64Op, nbc_cmpxchg_relaxed] at h
        rcases weak_cas_spec s a b nbc_cmpxchg_relaxed_success_order
            nbc_cmpxchg_relaxed_failure_order sp with ⟨_, _, heq⟩ | ⟨_, heq⟩ <;>
          rw [heq] at h <;> simp at h
        exact ⟨h.1.symm, h.2.symm⟩
    | _ => simp_all [runU64Op]
  · intro o s2 h
    cases op8 with
    | cmpxchg_strong_acquire a b =>
        refine ⟨rfl, ?_⟩
        simp only [runU8Op, ac_cmpxchg_strong_acquire] at h
        rcases strong_cas_spec s8 a b ac_cmpxchg_strong_acquire_success_order
            ac_cmpxchg_strong_acquire_failure_order with ⟨_, heq⟩ | ⟨_, heq⟩ <;>
          rw [heq] at h <;> simp at h
        exact ⟨h.1.symm, h.2.symm⟩
    | _ => simp_all [runU8Op]

/-- Witness for claim C7: the second conjunct applied to a failing
compare-and-swap on a concrete cell. -/
theorem claim_C7_totality_witness :
    (U64Op.cmpxchg_relaxed 1 2 false).isCmpxchg = true ∧
    (0 : Nat) = (CAtomicUInt64.mk 0).value ∧
    CAtomicUInt64.mk 0 = CAtomicUInt64.mk 0 :=
  (claim_C7_totality (U64Op.cmpxchg_relaxed 1 2 false) (CAtomicUInt64.mk 0)
    U8Op.load_relaxed (CAtomicUInt8.mk 0)).2.1 0 (CAtomicUInt64.mk 0) rfl

/-- Claim C8: for every compare-and-swap variant, when the call returns
success the caller's expected-value in/out location is left unchanged — it
still holds the value the caller passed in, which equals the value the cell
held before the swap. -/
theorem claim_C8_success_frame (c : CAtomicUInt64) (c8 : CAtomicUInt8)
    (orig new : Nat) (sp : Bool) :
    ((nbc_cmpxchg_relaxed c orig new sp).success = true →
      (nbc_cmpxchg_relaxed c orig new sp).orig = orig ∧ c.value = orig) ∧
    ((nbc_cmpxchg_acqrel c orig new sp).success = true →
      (nbc_cmpxchg_acqrel c orig new sp).orig = orig ∧ c.value = orig) ∧
    ((nbc_cmpxchg_seqcst c orig new sp).success = true →
      (nbc_cmpxchg_seqcst c orig new sp).orig = orig ∧ c.value = orig) ∧
    ((ac_cmpxchg_strong_acquire c8 orig new).success = true →
      (ac_cmpxchg_strong_acquire c8 orig new).orig = orig ∧ c8.value = orig) := by
  have W : ∀ (so fo : MemoryOrder) (sp : Bool),
      (atomic_compare_exchange_weak_explicit c orig new so fo sp).success = true →
      (atomic_compare_exchange_weak_explicit c orig new so fo sp).orig = orig ∧
        c.value = orig := by
    intro so fo sp h
    rcases weak_cas_spec c orig new so fo sp with ⟨_, ho, heq⟩ | ⟨_, heq⟩
    · rw [heq]
      exact ⟨rfl, ho⟩
    · rw [heq] at h
      simp at h
  have S : (atomic_compare_exchange_strong_explicit c8 orig new
        ac_cmpxchg_strong_acquire_success_order
        ac_cmpxchg_strong_acquire_failure_order).success = true →
      (atomic_compare_exchange_strong_explicit c8 orig new
        ac_cmpxchg_strong_acquire_success_order
        ac_cmpxchg_strong_acquire_failure_order).orig = orig ∧ c8.value = orig := by
    intro h
    rcases strong_cas_spec c8 orig new ac_cmpxchg_strong_acquire_success_order
        ac_cmpxchg_strong_acquire_failure_order with ⟨ho, heq⟩ | ⟨_, heq⟩
    · rw [heq]
      exact ⟨rfl, ho⟩
    · rw [heq] at h
      simp at h
  exact ⟨W _ _ sp, W _ _ sp, W _ _ sp, S⟩

/-- Witness for claim C8 at a successful call on a cell holding 2. -/
theorem claim_C8_success_frame_witness :
    (nbc_cmpxchg_seqcst (CAtomicUInt64.mk 2) 2 6 false).success = true ∧
    (nbc_cmpxchg_seqcst (CAtomicUInt64.mk 2) 2 6 false).orig = 2 ∧
    (CAtomicUInt64.mk 2).value = 2 := by
  have h := (claim_C8_success_frame (CAtomicUInt64.mk 2) (CAtomicUInt8.mk 2)
    2 6 false).2.2.1 rfl
  exact ⟨rfl, h.1, h.2⟩

/-- Claim C9: no compare-and-swap variant ever spuriously succeeds —
whenever any variant returns success, the cell's value at the moment of the
operation equaled the caller-supplied expected value and the cell was
replaced by the new value. -/
theorem claim_C9_no_spurious_success (c : CAtomicUInt64) (c8 : CAtomicUInt8)
    (orig new : Nat) (sp : Bool) :
    ((nbc_cmpxchg_relaxed c orig new sp).success = true →
      c.value = orig ∧ (nbc_cmpxchg_relaxed c orig new sp).obj.value = new) ∧
    ((nbc_cmpxchg_acqrel c orig new sp).success = true →
      c.value = orig ∧ (nbc_cmpxchg_acqrel c orig new sp).obj.value = new) ∧
    ((nbc_cmpxchg_seqcst c orig new sp).success = true →
      c.value = orig ∧ (nbc_cmpxchg_seqcst c orig new sp).obj.value = new) ∧
    ((ac_cmpxchg_strong_acquire c8 orig new).success = true →
      c8.value = orig ∧ (ac_cmpxchg_strong_acquire c8 orig new).obj.value = new) := by
  have W : ∀ (so fo : MemoryOrder) (sp : Bool),
      (atomic_compare_exchange_weak_explicit c orig new so fo sp).success = true →
      c.value = orig ∧
        (atomic_compare_exchange_weak_explicit c orig new so fo sp).obj.value = new := by
    intro so fo sp h
    rcases weak_cas_spec c orig new so fo sp with ⟨_, ho, heq⟩ | ⟨_, heq⟩
    · rw [heq]
      exact ⟨ho, rfl⟩
    · rw [heq] at h
      simp at h
  have S : (atomic_compare_exchange_strong_explicit c8 orig new
        ac_cmpxchg_strong_acquire_success_order
        ac_cmpxchg_strong_acquire_failure_order).success = true →
      c8.value = orig ∧
        (atomic_compare_exchange_strong_explicit c8 orig new
          ac_cmpxchg_strong_acquire_success_order
          ac_cmpxchg_strong_acquire_failure_order).obj.value = new := by
    intro h
    rcases strong_cas_spec c8 orig new ac_cmpxchg_strong_acquire_success_order
        ac_cmpxchg_strong_acquire_failure_order with ⟨ho, heq⟩ | ⟨_, heq⟩
    · rw [heq]
      exact ⟨ho, rfl⟩
    · rw [heq] at h
      simp at h
  exact ⟨W _ _ sp, W _ _ sp, W _ _ sp, S⟩

/-- Witness for claim C9 at a successful call on cells holding 8. -/
theorem claim_C9_no_spurious_success_witness :
    (nbc_cmpxchg_acqrel (CAtomicUInt64.mk 8) 8 1 false).success = true ∧
    (CAtomicUInt64.mk 8).value = 8 ∧
    (nbc_cmpxchg_acqrel (CAtomicUInt64.mk 8) 8 1 false).obj.value = 1 := by
  have h := (claim_C9_no_spurious_success (CAtomicUInt64.mk 8) (CAtomicUInt8.mk 8)
    8 1 false).2.1 rfl
  exact ⟨rfl, h.1, h.2⟩

/-- Claim C10: on a single thread, for every starting value v below `2^64`
and every amount a, calling `fetch_add a` and then `fetch_sub a` on the same
64-bit cell leaves the cell holding v again, and the second call returns
`(v + a) mod 2^64` — `fetch_sub` is the inverse of `fetch_add` modulo `2^64`. -/
theorem claim_C10_add_sub_inverse (v a : Nat) (h : v < 2 ^ 64) :
    (nbc_fetch_sub (nbc_fetch_add (CAtomicUInt64.mk v) a).2 a).1 =
      (v + a) % 2 ^ 64 ∧
    (nbc_fetch_sub (nbc_fetch_add (CAtomicUInt64.mk v) a).2 a).2.value = v := by
  have hN : U64_MOD = 18446744073709551616 := by norm_num [U64_MOD]
  have hP : (2 : Nat) ^ 64 = 18446744073709551616 := by norm_num
  refine ⟨rfl, ?_⟩
  simp only [nbc_fetch_add, nbc_fetch_sub, hN]
  rw [hP] at h
  omega

/-- Witness for claim C10 at v = 5, a = 3. -/
theorem claim_C10_add_sub_inverse_witness :
    (5 : Nat) < 2 ^ 64 ∧
    (nbc_fetch_sub (nbc_fetch_add (CAtomicUInt64.mk 5) 3).2 3).1 = (5 + 3) % 2 ^ 64 ∧
    (nbc_fetch_sub (nbc_fetch_add (CAtomicUInt64.mk 5) 3).2 3).2.value = 5 := by
  have h5 : (5 : Nat) < 2 ^ 64 := by norm_num
  exact ⟨h5, claim_C10_add_sub_inverse 5 3 h5⟩
